import Mathlib

/-!
Verification of the walking-gait animation core (`src/main.py`):
the signal-to-angle mapper (`JointCalculator.linear_interpolation`,
`convert_to_angle`), the forward-kinematics solver
(`JointCalculator.calculate_joint_positions`), the image pre-scaling
(`ImageHandler.resize_image`), the per-frame sprite compositor
(`WalkingAnimation.animate` lines 268-274) and the frame loop
(`WalkingAnimation.animate`).

Raw signals and calibrated angles are modelled over `ℚ` (the Python
arithmetic on them is exact rational arithmetic at the values the claims
use); the trigonometric solver is modelled over `ℝ`.  Python's
`ZeroDivisionError` is modelled by `Except String`: a division whose
denominator is zero is an `error`, every other computation an `ok`.
-/

namespace Walk

/-- One per-joint calibration curve, as stored in `angle_params`
(`src/main.py` lines 21-26): the raw-signal range and the angle range. -/
structure CalibrationCurve where
  signal_min : ℚ
  signal_max : ℚ
  angle_min : ℚ
  angle_max : ℚ
  deriving DecidableEq, Repr

/-- `JointCalculator.linear_interpolation` (`src/main.py` line 41):
`y0 + (y1 - y0) * (x - x0) / (x1 - x0)`.  In Python the division raises
`ZeroDivisionError` when `x1 - x0 == 0`; that outcome is the `error` case. -/
def linear_interpolation (x x0 y0 x1 y1 : ℚ) : Except String ℚ :=
  if x1 - x0 = 0 then .error "ZeroDivisionError"
  else .ok (y0 + (y1 - y0) * (x - x0) / (x1 - x0))

/-- Calibrating one raw signal with one curve: the lambda of
`convert_to_angle` (`src/main.py` lines 55-59), which feeds the curve's
corners to `linear_interpolation`. -/
def calibrate (c : CalibrationCurve) (x : ℚ) : Except String ℚ :=
  linear_interpolation x c.signal_min c.angle_min c.signal_max c.angle_max

/-- The three configured curves, keyed `Knee`, `Foot`, `Hip` in the order the
`angle_params` dict of `src/main.py` lists them. -/
structure AngleParams where
  knee : CalibrationCurve
  foot : CalibrationCurve
  hip : CalibrationCurve
  deriving DecidableEq, Repr

/-- `JointCalculator.default_params` (`src/main.py` lines 21-25). -/
def default_params : AngleParams where
  knee := ⟨0, 152, 100, 170⟩
  foot := ⟨0, 150, 85, 140⟩
  hip := ⟨0, 45, -15, 60⟩

/-- One input row of the CSV table: the raw `Hip`, `Knee`, `Foot` signals. -/
structure RawRow where
  hip : ℚ
  knee : ℚ
  foot : ℚ
  deriving DecidableEq, Repr

/-- One converted row: the raw signals plus the derived
`Hip (Angle)`, `Knee (Angle)`, `Foot (Angle)` columns. -/
structure AngleRow where
  hip : ℚ
  knee : ℚ
  foot : ℚ
  hipAngle : ℚ
  kneeAngle : ℚ
  footAngle : ℚ
  deriving DecidableEq, Repr

/-- Reassemble the dataframe rows from the raw rows and the three computed
angle columns (the column assignments of `convert_to_angle`). -/
def zipAngles : List RawRow → List ℚ → List ℚ → List ℚ → List AngleRow
  | r :: rs, k :: ks, f :: fs, h :: hs =>
      ⟨r.hip, r.knee, r.foot, h, k, f⟩ :: zipAngles rs ks fs hs
  | _, _, _, _ => []

/-- `Series.apply`: apply `f` to every entry of a column in order; the first
raised exception aborts the whole application.  On an empty column `f` is
never invoked. -/
def applyCol (f : ℚ → Except String ℚ) : List ℚ → Except String (List ℚ)
  | [] => .ok []
  | x :: xs => do
    let y ← f x
    let ys ← applyCol f xs
    return y :: ys

/-- `JointCalculator.convert_to_angle` (`src/main.py` lines 43-61): for each
joint, in the dict order `Knee`, `Foot`, `Hip`, apply the calibration lambda
to that joint's column of every row; a `ZeroDivisionError` raised by any
application aborts the whole conversion.  On an empty table each column map
applies the lambda to nothing and succeeds with the empty column. -/
def convert_to_angle (p : AngleParams) (rows : List RawRow) :
    Except String (List AngleRow) := do
  let ks ← applyCol (calibrate p.knee) (rows.map RawRow.knee)
  let fs ← applyCol (calibrate p.foot) (rows.map RawRow.foot)
  let hs ← applyCol (calibrate p.hip) (rows.map RawRow.hip)
  return zipAngles rows ks fs hs

/-- `np.radians`: degrees to radians. -/
noncomputable def radians (d : ℝ) : ℝ := d * Real.pi / 180

/-- The solver's output for one frame: the three distal joint positions and
the three absolute segment angles, in the order
`calculate_joint_positions` returns them. -/
structure FrameGeometry where
  knee_pos : ℝ × ℝ
  ankle_pos : ℝ × ℝ
  toe_pos : ℝ × ℝ
  hip_angle : ℝ
  knee_angle : ℝ
  foot_angle : ℝ

/-- `JointCalculator.calculate_joint_positions` (`src/main.py` lines 63-82),
transcribed line by line; points are `(x, y)` pairs and `L * [cos a, -sin a]`
is applied componentwise as numpy does. -/
noncomputable def calculate_joint_positions (hip_joint : ℝ × ℝ)
    (L1 L2 L3 theta_h theta_k theta_f : ℝ) : FrameGeometry :=
  let hip_angle := -theta_h - 90
  let knee_pos := (hip_joint.1 + L1 * Real.cos (radians hip_angle),
                   hip_joint.2 + L1 * -Real.sin (radians hip_angle))
  let knee_angle := 90 - theta_h - theta_k
  let ankle_pos := (knee_pos.1 + L2 * Real.cos (radians knee_angle),
                    knee_pos.2 + L2 * -Real.sin (radians knee_angle))
  let foot_angle := 270 - theta_h - theta_k + theta_f
  let toe_pos := (ankle_pos.1 + L3 * Real.cos (radians foot_angle),
                  ankle_pos.2 + L3 * -Real.sin (radians foot_angle))
  ⟨knee_pos, ankle_pos, toe_pos, hip_angle, knee_angle, foot_angle⟩

/-- The solver as §4.2 of the spec words it: each position is the previous
anchor plus the length scaling the vector `(cos a°, -sin a°)`, written with
vector addition and scalar multiplication on `ℝ × ℝ`. -/
noncomputable def solve_spec (hipPoint : ℝ × ℝ)
    (L1 L2 L3 θh θk θf : ℝ) : FrameGeometry :=
  let hipAngle := -θh - 90
  let kneePos := hipPoint + L1 • (Real.cos (radians hipAngle), -Real.sin (radians hipAngle))
  let kneeAngle := 90 - θh - θk
  let anklePos := kneePos + L2 • (Real.cos (radians kneeAngle), -Real.sin (radians kneeAngle))
  let footAngle := 270 - θh - θk + θf
  let toePos := anklePos + L3 • (Real.cos (radians footAngle), -Real.sin (radians footAngle))
  ⟨kneePos, anklePos, toePos, hipAngle, kneeAngle, footAngle⟩

/-- Euclidean distance between two points of the plane. -/
noncomputable def dist2 (p q : ℝ × ℝ) : ℝ :=
  Real.sqrt ((q.1 - p.1) ^ 2 + (q.2 - p.2) ^ 2)

/-- Which static asset a draw command places (`hip_image`, `knee_image`,
`foot_image` of `WalkingAnimation.__init__`). -/
inductive AssetRole
  | hip
  | knee
  | foot
  deriving DecidableEq, Repr

/-- One compositor output: `display_image(image, position, angle)` places
`image` centered at `position`, rotated by `angle` degrees. -/
structure DrawCmd where
  role : AssetRole
  center : ℝ × ℝ
  angle : ℝ

/-- Midpoint of a segment's two endpoints. -/
noncomputable def midpt (p q : ℝ × ℝ) : ℝ × ℝ :=
  ((p.1 + q.1) / 2, (p.2 + q.2) / 2)

/-- The per-frame sprite placement of `WalkingAnimation.animate`
(`src/main.py` lines 264-274): run the solver, form
`hip_center = (hip_joint + knee_pos) / 2`,
`knee_center = (knee_pos + ankle_pos) / 2`,
`foot_center = (ankle_pos + toe_pos) / 2` (componentwise, as numpy does),
then display the hip image at `hip_center` rotated by `hip_angle`, the knee
image at `knee_center` rotated by `knee_angle`, and the foot image at
`foot_center` rotated by `foot_angle`. -/
noncomputable def composeFrame (hip_joint : ℝ × ℝ)
    (L1 L2 L3 theta_h theta_k theta_f : ℝ) : List DrawCmd :=
  let g := calculate_joint_positions hip_joint L1 L2 L3 theta_h theta_k theta_f
  let hip_center := ((hip_joint.1 + g.knee_pos.1) / 2, (hip_joint.2 + g.knee_pos.2) / 2)
  let knee_center := ((g.knee_pos.1 + g.ankle_pos.1) / 2, (g.knee_pos.2 + g.ankle_pos.2) / 2)
  let foot_center := ((g.ankle_pos.1 + g.toe_pos.1) / 2, (g.ankle_pos.2 + g.toe_pos.2) / 2)
  [⟨AssetRole.hip, hip_center, g.hip_angle⟩,
   ⟨AssetRole.knee, knee_center, g.knee_angle⟩,
   ⟨AssetRole.foot, foot_center, g.foot_angle⟩]

/-- The frame loop of `WalkingAnimation.animate` (`src/main.py` lines
244-291): at frame index `frame`, if `frame >= total_frames` stop (releasing
the sink); otherwise render the row at index `frame`, write the resulting
raster to the video sink, and reschedule with `frame + 1`.  `render` stands
for the whole per-row frame production (compose, capture, encode); the list
collects the frames written to the sink, in write order. -/
def animateFrom {α : Type} (render : AngleRow → α) (rows : List AngleRow)
    (frame : Nat) : List α :=
  if h : rows.length ≤ frame then []
  else render (rows.get ⟨frame, Nat.lt_of_not_le h⟩) ::
    animateFrom render rows (frame + 1)
  termination_by rows.length - frame
  decreasing_by omega

/-- The whole run (`WalkingAnimation.__init__` then `run`): the constructor
converts every raw row to angles before the first frame is drawn
(`src/main.py` line 222); only if that conversion succeeds does the frame
loop start from frame 0. -/
def run_pipeline {α : Type} (render : AngleRow → α) (p : AngleParams)
    (rows : List RawRow) : Except String (List α) :=
  match convert_to_angle p rows with
  | .error e => .error e
  | .ok ars => .ok (animateFrom render ars 0)

/-- Does the haystack start with the needle? (helper for Python's
substring test `'hip' in image_path`). -/
def chainStarts : List Char → List Char → Bool
  | [], _ => true
  | _ :: _, [] => false
  | a :: as, b :: bs => a == b && chainStarts as bs

/-- Python's `needle in haystack` on strings, over their character lists. -/
def chainIn (needle : List Char) : List Char → Bool
  | [] => needle.isEmpty
  | c :: t => chainStarts needle (c :: t) || chainIn needle t

/-- The per-asset effective fill constant chosen by `resize_image`
(`src/main.py` lines 105-112) from substrings of the image path:
`'hip'` selects 0.72, then `'knee'` 0.81, then `'foot'` 0.55, else 0.8. -/
def fill_of (image_path : List Char) : ℚ :=
  if chainIn "hip".data image_path then 72 / 100
  else if chainIn "knee".data image_path then 81 / 100
  else if chainIn "foot".data image_path then 55 / 100
  else 8 / 10

/-- The real-valued target dimensions `(new_width, new_height)` computed by
`ImageHandler.resize_image` (`src/main.py` lines 101-119) before the final
integer conversion: with `aspect_ratio = width / height`, if
`width > height` then `new_width = length / fill` and
`new_height = new_width / aspect_ratio`, otherwise
`new_height = length / fill` and `new_width = new_height * aspect_ratio`. -/
def resize_dims (image_path : List Char) (width height len : ℚ) : ℚ × ℚ :=
  let aspect := width / height
  let fill := fill_of image_path
  if height < width then (len / fill, len / fill / aspect)
  else (len / fill * aspect, len / fill)

/-- `ImageHandler.resize_image`'s final pixel dimensions
(`src/main.py` line 121): `int(new_width)`, `int(new_height)` — truncation
toward zero, which on the nonnegative dimensions is the floor. -/
def resize_image (image_path : List Char) (width height len : ℚ) : ℤ × ℤ :=
  let d := resize_dims image_path width height len
  (⌊d.1⌋, ⌊d.2⌋)

/-- A degenerate configuration: the default curves except that the knee
curve has `signal_max = signal_min = 0`. -/
def degen_params : AngleParams where
  knee := ⟨0, 0, 100, 170⟩
  foot := ⟨0, 150, 85, 140⟩
  hip := ⟨0, 45, -15, 60⟩

theorem exc_bind_ok {α β : Type} (a : α) (f : α → Except String β) :
    (Except.ok a >>= f) = f a := rfl

theorem exc_bind_err {α β : Type} (e : String) (f : α → Except String β) :
    ((Except.error e : Except String α) >>= f) = .error e := rfl

theorem calibrate_deg_err (c : CalibrationCurve)
    (hc : c.signal_max = c.signal_min) (x : ℚ) :
    calibrate c x = .error "ZeroDivisionError" := by
  simp [calibrate, linear_interpolation, hc]

theorem calibrate_ne_ok (c : CalibrationCurve)
    (hc : c.signal_max ≠ c.signal_min) (x : ℚ) :
    ∃ y, calibrate c x = .ok y := by
  simp only [calibrate, linear_interpolation, if_neg (sub_ne_zero_of_ne hc)]
  exact ⟨_, rfl⟩

theorem applyCol_ok (c : CalibrationCurve)
    (hc : c.signal_max ≠ c.signal_min) (xs : List ℚ) :
    ∃ ys, applyCol (calibrate c) xs = .ok ys := by
  induction xs with
  | nil => exact ⟨[], rfl⟩
  | cons x xs ih =>
    obtain ⟨y, hy⟩ := calibrate_ne_ok c hc x
    obtain ⟨ys, hys⟩ := ih
    refine ⟨y :: ys, ?_⟩
    simp only [applyCol]
    rw [hy, exc_bind_ok, hys, exc_bind_ok]
    rfl

theorem applyCol_deg_err (c : CalibrationCurve)
    (hc : c.signal_max = c.signal_min) (x : ℚ) (xs : List ℚ) :
    applyCol (calibrate c) (x :: xs) = .error "ZeroDivisionError" := by
  simp only [applyCol]
  rw [calibrate_deg_err c hc, exc_bind_err]

theorem convert_to_angle_degenerate (p : AngleParams) (r : RawRow)
    (rs : List RawRow)
    (hdeg : p.knee.signal_max = p.knee.signal_min ∨
      p.foot.signal_max = p.foot.signal_min ∨
      p.hip.signal_max = p.hip.signal_min) :
    convert_to_angle p (r :: rs) = .error "ZeroDivisionError" := by
  rcases hdeg with hk | hf | hh
  · simp only [convert_to_angle, List.map_cons]
    rw [applyCol_deg_err _ hk, exc_bind_err]
  · by_cases hk : p.knee.signal_max = p.knee.signal_min
    · simp only [convert_to_angle, List.map_cons]
      rw [applyCol_deg_err _ hk, exc_bind_err]
    · obtain ⟨ks, hks⟩ := applyCol_ok p.knee hk ((r :: rs).map RawRow.knee)
      simp only [convert_to_angle]
      rw [hks, exc_bind_ok]
      simp only [List.map_cons]
      rw [applyCol_deg_err _ hf, exc_bind_err]
  · by_cases hk : p.knee.signal_max = p.knee.signal_min
    · simp only [convert_to_angle, List.map_cons]
      rw [applyCol_deg_err _ hk, exc_bind_err]
    · by_cases hf : p.foot.signal_max = p.foot.signal_min
      · obtain ⟨ks, hks⟩ := applyCol_ok p.knee hk ((r :: rs).map RawRow.knee)
        simp only [convert_to_angle]
        rw [hks, exc_bind_ok]
        simp only [List.map_cons]
        rw [applyCol_deg_err _ hf, exc_bind_err]
      · obtain ⟨ks, hks⟩ := applyCol_ok p.knee hk ((r :: rs).map RawRow.knee)
        obtain ⟨fs, hfs⟩ := applyCol_ok p.foot hf ((r :: rs).map RawRow.foot)
        simp only [convert_to_angle]
        rw [hks, exc_bind_ok, hfs, exc_bind_ok]
        simp only [List.map_cons]
        rw [applyCol_deg_err _ hh, exc_bind_err]

theorem animateFrom_eq_drop {α : Type} (render : AngleRow → α)
    (rows : List AngleRow) :
    ∀ frame, animateFrom render rows frame = (rows.drop frame).map render := by
  have H : ∀ n frame, rows.length - frame ≤ n →
      animateFrom render rows frame = (rows.drop frame).map render := by
    intro n
    induction n with
    | zero =>
      intro frame h
      have hle : rows.length ≤ frame := by omega
      rw [animateFrom, dif_pos hle, List.drop_eq_nil_of_le hle, List.map_nil]
    | succ n ih =>
      intro frame h
      by_cases hle : rows.length ≤ frame
      · rw [animateFrom, dif_pos hle, List.drop_eq_nil_of_le hle, List.map_nil]
      · have hlt : frame < rows.length := Nat.lt_of_not_le hle
        rw [animateFrom, dif_neg hle, List.drop_eq_getElem_cons hlt, List.map_cons]
        rw [ih (frame + 1) (by omega)]
        rfl
  intro frame
  exact H (rows.length - frame) frame le_rfl

/-- C2: `calibrate` is exactly the unclamped linear interpolation
`angle_min + (angle_max - angle_min) * (x - signal_min) /
(signal_max - signal_min)` whenever `signal_max ≠ signal_min`, for every
raw signal `x`, also outside `[signal_min, signal_max]`; in particular the
curve `(0, 100, 0, 90)` sends `50` to `45` and `150` to `135`. -/
theorem calibrate_linear (c : CalibrationCurve) (x : ℚ)
    (h : c.signal_max ≠ c.signal_min) :
    calibrate c x = .ok (c.angle_min + (c.angle_max - c.angle_min) *
      (x - c.signal_min) / (c.signal_max - c.signal_min)) ∧
    calibrate ⟨0, 100, 0, 90⟩ 50 = .ok 45 ∧
    calibrate ⟨0, 100, 0, 90⟩ 150 = .ok 135 := by
  refine ⟨?_, ?_, ?_⟩
  · unfold calibrate linear_interpolation
    rw [if_neg (sub_ne_zero_of_ne h)]
  · simp [calibrate, linear_interpolation]
    norm_num
  · simp [calibrate, linear_interpolation]
    norm_num

/-- Witness for C2 at the curve `(0, 100, 0, 90)` and raw signal `50`. -/
theorem calibrate_linear_witness :
    calibrate ⟨0, 100, 0, 90⟩ 50 =
      .ok (0 + (90 - 0) * ((50 : ℚ) - 0) / (100 - 0)) ∧
    calibrate ⟨0, 100, 0, 90⟩ 50 = .ok 45 ∧
    calibrate ⟨0, 100, 0, 90⟩ 150 = .ok 135 :=
  calibrate_linear ⟨0, 100, 0, 90⟩ 50 (by norm_num)

/-- C6: with the default calibration set, the raw row
`Hip=0, Knee=0, Foot=0` converts to exactly the angles
`Hip (Angle) = -15`, `Knee (Angle) = 100`, `Foot (Angle) = 85`,
each joint's `angle_min`. -/
theorem convert_default_zero_row :
    convert_to_angle default_params [⟨0, 0, 0⟩] =
      .ok [⟨0, 0, 0, -15, 100, 85⟩] := by
  have hk : calibrate default_params.knee 0 = .ok 100 := by
    simp [calibrate, linear_interpolation, default_params]
  have hf : calibrate default_params.foot 0 = .ok 85 := by
    simp [calibrate, linear_interpolation, default_params]
  have hh : calibrate default_params.hip 0 = .ok (-15) := by
    simp [calibrate, linear_interpolation, default_params]
  simp only [convert_to_angle, List.map_cons, List.map_nil, applyCol]
  rw [hk, exc_bind_ok, hf, exc_bind_ok, hh, exc_bind_ok]
  rfl

/-- C3 counterexample: with a degenerate knee curve but an empty input
table, the run succeeds (the calibration lambda is never invoked on an
empty column), so the program does not fail at all, let alone with a
configuration error. -/
theorem run_pipeline_degenerate_empty_ok :
    degen_params.knee.signal_max = degen_params.knee.signal_min ∧
    run_pipeline (fun r => r) degen_params ([] : List RawRow) = .ok [] := by
  refine ⟨rfl, ?_⟩
  have h0 : convert_to_angle degen_params [] = .ok [] := rfl
  simp only [run_pipeline, h0]
  rw [animateFrom_eq_drop]
  rfl

/-- C3 amended: if any configured calibration curve is degenerate
(`signal_max = signal_min`) and the input table has at least one row, the
run fails with the division error raised during the up-front conversion in
the constructor, before any frame is rendered or written (the error result
carries no frames). -/
theorem run_pipeline_degenerate_errors {α : Type} (render : AngleRow → α)
    (p : AngleParams) (rows : List RawRow) (hne : rows ≠ [])
    (hdeg : p.knee.signal_max = p.knee.signal_min ∨
      p.foot.signal_max = p.foot.signal_min ∨
      p.hip.signal_max = p.hip.signal_min) :
    run_pipeline render p rows = .error "ZeroDivisionError" := by
  obtain ⟨r, rs, rfl⟩ : ∃ r rs, rows = r :: rs := by
    cases rows with
    | nil => exact absurd rfl hne
    | cons r rs => exact ⟨r, rs, rfl⟩
  have hconv := convert_to_angle_degenerate p r rs hdeg
  simp only [run_pipeline, hconv]

/-- Witness for C3's amended statement: degenerate knee curve, one raw row. -/
theorem run_pipeline_degenerate_errors_witness :
    run_pipeline (fun r => r) degen_params [⟨0, 0, 0⟩] =
      .error "ZeroDivisionError" :=
  run_pipeline_degenerate_errors (fun r => r) degen_params [⟨0, 0, 0⟩]
    (List.cons_ne_nil _ _) (Or.inl rfl)

/-- C7: the frame loop writes exactly one frame per input row, in row
order: starting at frame 0 it produces precisely the row list mapped
through the per-row frame production, so the number of written frames
equals the number of rows and the k-th written frame comes from the k-th
row. -/
theorem animate_one_frame_per_row {α : Type} (render : AngleRow → α)
    (rows : List AngleRow) :
    animateFrom render rows 0 = rows.map render ∧
    (animateFrom render rows 0).length = rows.length := by
  have h := animateFrom_eq_drop render rows 0
  rw [List.drop_zero] at h
  exact ⟨h, by rw [h, List.length_map]⟩

theorem dist2_step (p : ℝ × ℝ) (L θ : ℝ) (hL : 0 ≤ L) :
    dist2 p (p.1 + L * Real.cos θ, p.2 + L * -Real.sin θ) = L := by
  simp only [dist2]
  have e : (p.1 + L * Real.cos θ - p.1) ^ 2 + (p.2 + L * -Real.sin θ - p.2) ^ 2
      = L ^ 2 * (Real.sin θ ^ 2 + Real.cos θ ^ 2) := by ring
  rw [e, Real.sin_sq_add_cos_sq, mul_one, Real.sqrt_sq hL]

/-- C1: the solver computes exactly the chained closed form of §4.2:
`hipAngle = -θh - 90`, `kneePos = hipPoint + L1 • (cos hipAngle°, -sin hipAngle°)`,
`kneeAngle = 90 - θh - θk`, `anklePos = kneePos + L2 • (cos kneeAngle°, -sin kneeAngle°)`,
`footAngle = 270 - θh - θk + θf`, `toePos = anklePos + L3 • (cos footAngle°, -sin footAngle°)`,
with all angle arguments in degrees. -/
theorem calculate_joint_positions_eq_spec (hip : ℝ × ℝ)
    (L1 L2 L3 θh θk θf : ℝ) :
    calculate_joint_positions hip L1 L2 L3 θh θk θf =
      solve_spec hip L1 L2 L3 θh θk θf := by
  simp only [calculate_joint_positions, solve_spec, FrameGeometry.mk.injEq,
    Prod.ext_iff, Prod.fst_add, Prod.snd_add, Prod.smul_fst, Prod.smul_snd,
    smul_eq_mul]
  norm_num

/-- C4: doubling all three segment lengths while holding the angles fixed
exactly doubles each position's offset from the hip anchor (componentwise
for knee, ankle and toe) and leaves all three absolute segment angles
unchanged. -/
theorem doubling_lengths_doubles_offsets (hip : ℝ × ℝ)
    (L1 L2 L3 θh θk θf : ℝ) :
    ((calculate_joint_positions hip (2 * L1) (2 * L2) (2 * L3) θh θk θf).knee_pos.1 - hip.1 =
        2 * ((calculate_joint_positions hip L1 L2 L3 θh θk θf).knee_pos.1 - hip.1) ∧
      (calculate_joint_positions hip (2 * L1) (2 * L2) (2 * L3) θh θk θf).knee_pos.2 - hip.2 =
        2 * ((calculate_joint_positions hip L1 L2 L3 θh θk θf).knee_pos.2 - hip.2)) ∧
    ((calculate_joint_positions hip (2 * L1) (2 * L2) (2 * L3) θh θk θf).ankle_pos.1 - hip.1 =
        2 * ((calculate_joint_positions hip L1 L2 L3 θh θk θf).ankle_pos.1 - hip.1) ∧
      (calculate_joint_positions hip (2 * L1) (2 * L2) (2 * L3) θh θk θf).ankle_pos.2 - hip.2 =
        2 * ((calculate_joint_positions hip L1 L2 L3 θh θk θf).ankle_pos.2 - hip.2)) ∧
    ((calculate_joint_positions hip (2 * L1) (2 * L2) (2 * L3) θh θk θf).toe_pos.1 - hip.1 =
        2 * ((calculate_joint_positions hip L1 L2 L3 θh θk θf).toe_pos.1 - hip.1) ∧
      (calculate_joint_positions hip (2 * L1) (2 * L2) (2 * L3) θh θk θf).toe_pos.2 - hip.2 =
        2 * ((calculate_joint_positions hip L1 L2 L3 θh θk θf).toe_pos.2 - hip.2)) ∧
    (calculate_joint_positions hip (2 * L1) (2 * L2) (2 * L3) θh θk θf).hip_angle =
      (calculate_joint_positions hip L1 L2 L3 θh θk θf).hip_angle ∧
    (calculate_joint_positions hip (2 * L1) (2 * L2) (2 * L3) θh θk θf).knee_angle =
      (calculate_joint_positions hip L1 L2 L3 θh θk θf).knee_angle ∧
    (calculate_joint_positions hip (2 * L1) (2 * L2) (2 * L3) θh θk θf).foot_angle =
      (calculate_joint_positions hip L1 L2 L3 θh θk θf).foot_angle := by
  refine ⟨⟨?_, ?_⟩, ⟨?_, ?_⟩, ⟨?_, ?_⟩, ?_, ?_, ?_⟩ <;>
    simp only [calculate_joint_positions] <;> ring

/-- C5: two solver calls that differ only in `θf` return identical
`knee_pos`, `ankle_pos`, `hip_angle` and `knee_angle`; in particular
`knee_angle` is a function of `θh` and `θk` alone, and only
`foot_angle`/`toe_pos` can depend on `θf`. -/
theorem theta_f_only_affects_foot (hip : ℝ × ℝ)
    (L1 L2 L3 θh θk θf θf' : ℝ) :
    (calculate_joint_positions hip L1 L2 L3 θh θk θf).knee_pos =
      (calculate_joint_positions hip L1 L2 L3 θh θk θf').knee_pos ∧
    (calculate_joint_positions hip L1 L2 L3 θh θk θf).ankle_pos =
      (calculate_joint_positions hip L1 L2 L3 θh θk θf').ankle_pos ∧
    (calculate_joint_positions hip L1 L2 L3 θh θk θf).hip_angle =
      (calculate_joint_positions hip L1 L2 L3 θh θk θf').hip_angle ∧
    (calculate_joint_positions hip L1 L2 L3 θh θk θf).knee_angle =
      (calculate_joint_positions hip L1 L2 L3 θh θk θf').knee_angle :=
  ⟨rfl, rfl, rfl, rfl⟩

/-- C10: for nonnegative lengths the returned chain preserves the segment
lengths exactly: the Euclidean distances hip→knee, knee→ankle and
ankle→toe equal `L1`, `L2`, `L3` for all angles. -/
theorem joint_positions_preserve_lengths (hip : ℝ × ℝ)
    (L1 L2 L3 θh θk θf : ℝ) (h1 : 0 ≤ L1) (h2 : 0 ≤ L2) (h3 : 0 ≤ L3) :
    dist2 hip (calculate_joint_positions hip L1 L2 L3 θh θk θf).knee_pos = L1 ∧
    dist2 (calculate_joint_positions hip L1 L2 L3 θh θk θf).knee_pos
      (calculate_joint_positions hip L1 L2 L3 θh θk θf).ankle_pos = L2 ∧
    dist2 (calculate_joint_positions hip L1 L2 L3 θh θk θf).ankle_pos
      (calculate_joint_positions hip L1 L2 L3 θh θk θf).toe_pos = L3 :=
  ⟨dist2_step hip L1 (radians (-θh - 90)) h1,
   dist2_step (calculate_joint_positions hip L1 L2 L3 θh θk θf).knee_pos
     L2 (radians (90 - θh - θk)) h2,
   dist2_step (calculate_joint_positions hip L1 L2 L3 θh θk θf).ankle_pos
     L3 (radians (270 - θh - θk + θf)) h3⟩

/-- Witness for C10 at the unit chain anchored at the origin. -/
theorem joint_positions_preserve_lengths_witness :
    dist2 (0, 0) (calculate_joint_positions (0, 0) 1 1 1 0 0 0).knee_pos = 1 ∧
    dist2 (calculate_joint_positions (0, 0) 1 1 1 0 0 0).knee_pos
      (calculate_joint_positions (0, 0) 1 1 1 0 0 0).ankle_pos = 1 ∧
    dist2 (calculate_joint_positions (0, 0) 1 1 1 0 0 0).ankle_pos
      (calculate_joint_positions (0, 0) 1 1 1 0 0 0).toe_pos = 1 :=
  joint_positions_preserve_lengths (0, 0) 1 1 1 0 0 0
    zero_le_one zero_le_one zero_le_one

/-- C8 counterexample: at hip anchor `(0,0)`, lengths `L1 = 0, L2 = 2,
L3 = 0` and zero angles, the draw command carrying the knee image (the
second command the frame emits) is not centered at
`(hipPoint + kneePos)/2`: the code centers the hip image there and centers
the knee image at `(kneePos + anklePos)/2`, which differs here. -/
theorem composeFrame_knee_image_not_at_hip_mid :
    ((composeFrame (0, 0) 0 2 0 0 0 0).get ⟨1, by simp [composeFrame]⟩).role
        = AssetRole.knee ∧
    ((composeFrame (0, 0) 0 2 0 0 0 0).get ⟨1, by simp [composeFrame]⟩).center ≠
      midpt (0, 0) (calculate_joint_positions (0, 0) 0 2 0 0 0 0).knee_pos := by
  constructor
  · rfl
  · simp only [composeFrame, calculate_joint_positions, midpt, List.get]
    intro h
    rw [Prod.mk.injEq] at h
    obtain ⟨h1, h2⟩ := h
    have hs := Real.sin_sq_add_cos_sq (radians (90 - 0 - 0))
    ring_nf at h1 h2 hs
    have hc : Real.cos (radians 90) = 0 := by linarith
    have hsn : Real.sin (radians 90) = 0 := by linarith
    rw [hc, hsn] at hs
    norm_num at hs

/-- C8 amended: the compositor emits exactly three draw commands, each
image centered at the midpoint of its own segment and rotated by that
segment's absolute angle: the hip image at `(hipPoint + kneePos)/2` with
`hipAngle`, the knee image at `(kneePos + anklePos)/2` with `kneeAngle`,
and the foot image at `(anklePos + toePos)/2` with `footAngle`. -/
theorem composeFrame_images_at_segment_midpoints (hip : ℝ × ℝ)
    (L1 L2 L3 θh θk θf : ℝ) :
    composeFrame hip L1 L2 L3 θh θk θf =
      [⟨AssetRole.hip,
        midpt hip (calculate_joint_positions hip L1 L2 L3 θh θk θf).knee_pos,
        (calculate_joint_positions hip L1 L2 L3 θh θk θf).hip_angle⟩,
       ⟨AssetRole.knee,
        midpt (calculate_joint_positions hip L1 L2 L3 θh θk θf).knee_pos
          (calculate_joint_positions hip L1 L2 L3 θh θk θf).ankle_pos,
        (calculate_joint_positions hip L1 L2 L3 θh θk θf).knee_angle⟩,
       ⟨AssetRole.foot,
        midpt (calculate_joint_positions hip L1 L2 L3 θh θk θf).ankle_pos
          (calculate_joint_positions hip L1 L2 L3 θh θk θf).toe_pos,
        (calculate_joint_positions hip L1 L2 L3 θh θk θf).foot_angle⟩] := rfl

theorem fill_of_pos (p : List Char) : 0 < fill_of p := by
  unfold fill_of
  split_ifs <;> norm_num

/-- C9 counterexample: for the knee asset (fill constant `0.81`), a 2×1
image and target length `81`, `resize_image` produces a 100×50 image; its
longer dimension `100` divided by the fill constant is `10000/81 ≠ 81`, so
the longer dimension divided by the fill constant does not equal the
segment length. -/
theorem resize_longer_div_fill_ne_len :
    resize_image "assets/knee_image.png".data 2 1 81 = (100, 50) ∧
    (100 : ℚ) / fill_of "assets/knee_image.png".data ≠ 81 := by
  have hf : fill_of "assets/knee_image.png".data = 81 / 100 := by
    simp only [fill_of]
    rw [if_neg (by decide), if_pos (by decide)]
  constructor
  · simp only [resize_image, resize_dims, hf]
    rw [if_pos (by norm_num)]
    norm_num
  · rw [hf]
    norm_num

/-- C9 amended: `resize_image` computes target dimensions whose longer one
equals the segment length divided by the asset's fill constant (so longer
dimension times the fill constant equals the segment length), keeps the
aspect ratio `width / height` exactly, and then truncates each dimension to
an integer pixel count. -/
theorem resize_longer_dim_times_fill (path : List Char)
    (width height len : ℚ) (hw : 0 < width) (hh : 0 < height)
    (hl : 0 < len) :
    max (resize_dims path width height len).1
        (resize_dims path width height len).2 = len / fill_of path ∧
    max (resize_dims path width height len).1
        (resize_dims path width height len).2 * fill_of path = len ∧
    (resize_dims path width height len).1 /
        (resize_dims path width height len).2 = width / height ∧
    resize_image path width height len =
      (⌊(resize_dims path width height len).1⌋,
       ⌊(resize_dims path width height len).2⌋) := by
  have hf : 0 < fill_of path := fill_of_pos path
  have hpos : 0 < len / fill_of path := div_pos hl hf
  have hmax : max (resize_dims path width height len).1
      (resize_dims path width height len).2 = len / fill_of path := by
    by_cases hlt : height < width
    · simp only [resize_dims, if_pos hlt]
      have hwh : 1 ≤ width / height := (one_le_div hh).mpr hlt.le
      exact max_eq_left (div_le_self hpos.le hwh)
    · simp only [resize_dims, if_neg hlt]
      have hwh : width / height ≤ 1 := (div_le_one hh).mpr (le_of_not_lt hlt)
      exact max_eq_right (mul_le_of_le_one_right hpos.le hwh)
  have hasp : (resize_dims path width height len).1 /
      (resize_dims path width height len).2 = width / height := by
    by_cases hlt : height < width
    · simp only [resize_dims, if_pos hlt]
      field_simp
      ring
    · simp only [resize_dims, if_neg hlt]
      rw [mul_div_cancel_left₀ _ (ne_of_gt hpos)]
  exact ⟨hmax, by rw [hmax, div_mul_cancel₀ _ (ne_of_gt hf)], hasp, rfl⟩

/-- Witness for C9's amended statement: knee asset, 2×1 image, length 81. -/
theorem resize_longer_dim_times_fill_witness :
    max (resize_dims "assets/knee_image.png".data 2 1 81).1
        (resize_dims "assets/knee_image.png".data 2 1 81).2 =
      81 / fill_of "assets/knee_image.png".data ∧
    max (resize_dims "assets/knee_image.png".data 2 1 81).1
        (resize_dims "assets/knee_image.png".data 2 1 81).2 *
      fill_of "assets/knee_image.png".data = 81 ∧
    (resize_dims "assets/knee_image.png".data 2 1 81).1 /
        (resize_dims "assets/knee_image.png".data 2 1 81).2 = 2 / 1 ∧
    resize_image "assets/knee_image.png".data 2 1 81 =
      (⌊(resize_dims "assets/knee_image.png".data 2 1 81).1⌋,
       ⌊(resize_dims "assets/knee_image.png".data 2 1 81).2⌋) :=
  resize_longer_dim_times_fill "assets/knee_image.png".data 2 1 81
    (by norm_num) (by norm_num) (by norm_num)

end Walk
